import Mathlib

/-!
# Verification of the dom-content-extraction density-tree engine

Shallow embedding of the CETD density-tree engine from `src/cetd.rs`
(with `src/tree.rs`, `src/utils.rs`, `src/unicode.rs`) and proofs of the
frozen claims about it.

Modelling conventions:
* DOM trees (`scraper::Html` / `ego_tree`) are rose trees whose nodes carry a
  numeric id, a node kind and a forest of children.  Text payloads are lists
  of grapheme clusters, each cluster a list of Unicode code points; this is
  the structure the external `unicode-segmentation` crate computes.
* `u32` counters are embedded as `Nat` (the claims are about values, not
  about wrap-around).
* `f32` values are embedded in an exact (unrounded) extended-value type `F`
  with IEEE-754 special values `+inf`, `-inf`, `nan`; `fin q` carries an
  exact rational.  `ln` is embedded by a sign-faithful surrogate
  (`ln q` modelled as `q - 1` for finite positive `q`, with the IEEE special
  cases preserved exactly): the claims under study depend only on the
  sign/zero/finite/infinite classification of `ln`, which the surrogate
  reproduces exactly on every argument the code can produce.
-/

namespace DCE

/-! ## Unicode text model (from `src/unicode.rs`) -/

/-- A grapheme cluster: the list of Unicode code points it is made of. -/
abbrev Cluster := List Nat

/-- A text: the list of grapheme clusters produced by the external
`unicode-segmentation` crate for the underlying string. -/
abbrev UText := List Cluster

/-- Unicode `White_Space` code points, as tested by Rust's
`char::is_whitespace` (used by `str::trim` and `split_whitespace`). -/
def isWsCp (c : Nat) : Bool :=
  (9 ≤ c && c ≤ 13) || c == 32 || c == 133 || c == 160 || c == 5760 ||
  (8192 ≤ c && c ≤ 8202) || c == 8232 || c == 8233 || c == 8239 ||
  c == 8287 || c == 12288

/-- A cluster consisting solely of whitespace code points. -/
def isWsCluster (c : Cluster) : Bool :=
  !c.isEmpty && c.all isWsCp

/-- Model of `str::trim`: strip leading and trailing whitespace (modelled at grapheme
cluster granularity). -/
def trimClusters (t : UText) : UText :=
  ((t.dropWhile isWsCluster).reverse.dropWhile isWsCluster).reverse

/-- Model of `unicode::count_graphemes` (src/unicode.rs:24): the number of grapheme
clusters. -/
def count_graphemes (t : UText) : Nat := t.length

/-- Model of `unicode::count_code_points` (src/unicode.rs:47): total number of code
points. -/
def count_code_points (t : UText) : Nat :=
  (t.map List.length).sum

/-- UTF-8 encoded length of one code point. -/
def utf8Len (c : Nat) : Nat :=
  if c < 128 then 1 else if c < 2048 then 2 else if c < 65536 then 3 else 4

/-- Byte length (`str::len`) of a text. -/
def byteLen (t : UText) : Nat :=
  (t.map (fun cl => (cl.map utf8Len).sum)).sum

/-! ## The extended f32 value model -/

/-- Exact model of an `f32` value: a finite value carried exactly as a
rational, or one of the IEEE-754 special values. -/
inductive F where
  | fin (q : ℚ)
  | pinf
  | ninf
  | nan
deriving DecidableEq, Repr

namespace F

/-- IEEE addition (exact on finite values). -/
def add : F → F → F
  | nan, _ => nan
  | _, nan => nan
  | pinf, ninf => nan
  | ninf, pinf => nan
  | pinf, _ => pinf
  | _, pinf => pinf
  | ninf, _ => ninf
  | _, ninf => ninf
  | fin a, fin b => fin (a + b)

/-- IEEE multiplication (exact on finite values). -/
def mul : F → F → F
  | nan, _ => nan
  | _, nan => nan
  | pinf, pinf => pinf
  | pinf, ninf => ninf
  | ninf, pinf => ninf
  | ninf, ninf => pinf
  | pinf, fin b => if b = 0 then nan else if 0 < b then pinf else ninf
  | fin a, pinf => if a = 0 then nan else if 0 < a then pinf else ninf
  | ninf, fin b => if b = 0 then nan else if 0 < b then ninf else pinf
  | fin a, ninf => if a = 0 then nan else if 0 < a then ninf else pinf
  | fin a, fin b => fin (a * b)

/-- IEEE division (exact on finite values; finite divided by +0 gives a
signed infinity, 0/0 gives NaN). -/
def div : F → F → F
  | nan, _ => nan
  | _, nan => nan
  | pinf, pinf => nan
  | pinf, ninf => nan
  | ninf, pinf => nan
  | ninf, ninf => nan
  | pinf, fin b => if 0 ≤ b then pinf else ninf
  | ninf, fin b => if 0 ≤ b then ninf else pinf
  | fin _, pinf => fin 0
  | fin _, ninf => fin 0
  | fin a, fin b =>
      if b = 0 then (if a = 0 then nan else if 0 < a then pinf else ninf)
      else fin (a / b)

/-- Model of `f32::ln`, with the IEEE special cases exact and finite positive
arguments mapped by the sign-faithful surrogate `q - 1` (same sign, same
zero set and same finiteness as the true logarithm on positive reals). -/
def ln : F → F
  | nan => nan
  | pinf => pinf
  | ninf => nan
  | fin q => if q < 0 then nan else if q = 0 then ninf else fin (q - 1)

/-- Model of `f32::log(self, base)`, defined in Rust as `self.ln() / base.ln()`. -/
def log (x base : F) : F := div (ln x) (ln base)

/-- IEEE `<=` (false on NaN operands). -/
def ble : F → F → Bool
  | nan, _ => false
  | _, nan => false
  | ninf, _ => true
  | _, ninf => false
  | _, pinf => true
  | pinf, _ => false
  | fin a, fin b => a ≤ b

/-- IEEE `<` (false on NaN operands). -/
def blt : F → F → Bool
  | nan, _ => false
  | _, nan => false
  | pinf, _ => false
  | _, pinf => true
  | _, ninf => false
  | ninf, _ => true
  | fin a, fin b => a < b

/-- Model of `f32::partial_cmp`: `none` when a NaN is involved. -/
def pcmp : F → F → Option Ordering
  | nan, _ => none
  | _, nan => none
  | pinf, pinf => some .eq
  | pinf, _ => some .gt
  | _, pinf => some .lt
  | ninf, ninf => some .eq
  | ninf, _ => some .lt
  | _, ninf => some .gt
  | fin a, fin b =>
      some (if a < b then .lt else if b < a then .gt else .eq)

/-- Whether the value is finite (neither infinite nor NaN). -/
def isFinite : F → Bool
  | fin _ => true
  | _ => false

/-- Model of `Iterator::sum` for `f32`: a left fold of IEEE addition from `0.0`. -/
def sum (l : List F) : F := l.foldl add (fin 0)

end F

/-! ## DOM model (the `scraper` / `ego_tree` document) -/

/-- The kind of a `scraper::Node`.  `other` stands for the remaining
variants (`Doctype`, `Fragment`, `ProcessingInstruction`), which the builder
retains but which contribute no metrics. -/
inductive NodeKind where
  | element (name : String)
  | text (t : UText)
  | comment
  | document
  | other
deriving DecidableEq, Repr

mutual
/-- A DOM node: its `ego_tree::NodeId` (a `Nat` here), its kind and its
children. -/
inductive DTree where
  | mk (id : Nat) (kind : NodeKind) (children : DForest)
deriving DecidableEq, Repr
/-- A list of sibling DOM nodes. -/
inductive DForest where
  | nil
  | cons (t : DTree) (ts : DForest)
deriving DecidableEq, Repr
end

/-- The id of a DOM node. -/
def DTree.id : DTree → Nat
  | .mk i _ _ => i

/-- The kind of a DOM node. -/
def DTree.kind : DTree → NodeKind
  | .mk _ k _ => k

/-- The children of a DOM node. -/
def DTree.children : DTree → DForest
  | .mk _ _ cs => cs

/-- The child-filter of `build_density_tree` (src/cetd.rs:180-195): script,
noscript and style elements, comments and document nodes are skipped
together with their whole subtrees. -/
def retained (k : NodeKind) : Bool :=
  match k with
  | .element n => !(n == "script" || n == "noscript" || n == "style")
  | .comment => false
  | .document => false
  | _ => true

/-- Whether a node kind is an anchor element (`<a>`), the condition of the
link-text flagging in `build_density_tree` (src/cetd.rs:224-230). -/
def isAnchorElem (k : NodeKind) : Bool :=
  match k with
  | .element n => n == "a"
  | _ => false

/-! ## Metrics (from `src/tree.rs`) -/

/-- Model of `NodeMetrics` (src/tree.rs:10-16); the `u32` counters are embedded as
`Nat`. -/
structure NodeMetrics where
  char_count : Nat
  tag_count : Nat
  link_char_count : Nat
  link_tag_count : Nat
deriving DecidableEq, Repr

/-- Model of `NodeMetrics::new` (all counters zero). -/
def NodeMetrics.new : NodeMetrics := ⟨0, 0, 0, 0⟩

/-- Model of `NodeMetrics::combine` (src/tree.rs:101-106): componentwise sum. -/
def NodeMetrics.combine (m o : NodeMetrics) : NodeMetrics :=
  ⟨m.char_count + o.char_count, m.tag_count + o.tag_count,
   m.link_char_count + o.link_char_count, m.link_tag_count + o.link_tag_count⟩

/-- The node's own local metric contribution, as added by
`build_density_tree` (src/cetd.rs:203-221): a text node contributes the
grapheme count of its trimmed text, an element contributes one tag (and one
link tag when it is `a`, `button` or `select`). -/
def localMetrics (k : NodeKind) : NodeMetrics :=
  match k with
  | .text t => ⟨count_graphemes (trimClusters t), 0, 0, 0⟩
  | .element n =>
      ⟨0, 1, 0, if n == "a" || n == "button" || n == "select" then 1 else 0⟩
  | _ => NodeMetrics.new

/-! ## The density tree (from `src/cetd.rs`) -/

/-- Model of `DensityNode` (src/cetd.rs:24-29). -/
structure DensityNode where
  node_id : Nat
  metrics : NodeMetrics
  density : F
  density_sum : Option F
deriving DecidableEq, Repr

/-- Model of `DensityNode::new` (src/cetd.rs:395-402): zero metrics, density `0.0`,
`density_sum` absent. -/
def DensityNode.new (id : Nat) : DensityNode :=
  ⟨id, NodeMetrics.new, F.fin 0, none⟩

mutual
/-- A node of the density tree together with its subtree. -/
inductive DenseTree where
  | mk (val : DensityNode) (children : DenseForest)
deriving DecidableEq, Repr
/-- A list of sibling density-tree nodes. -/
inductive DenseForest where
  | nil
  | cons (t : DenseTree) (ts : DenseForest)
deriving DecidableEq, Repr
end

/-- The `DensityNode` stored at a density-tree node. -/
def DenseTree.val : DenseTree → DensityNode
  | .mk v _ => v

/-- The children of a density-tree node. -/
def DenseTree.children : DenseTree → DenseForest
  | .mk _ cs => cs

mutual
/-- Sum of the metrics of a forest of already-built density nodes: the
result of the per-child `parent.value().metrics.combine(..)` calls of
`build_density_tree` (src/cetd.rs:232-236). -/
def combinedMetrics : DenseForest → NodeMetrics
  | .nil => NodeMetrics.new
  | .cons t ts => (combinedMetrics ts).combine t.val.metrics
end

mutual
/-- Model of `DensityTree::build_density_tree` (src/cetd.rs:175-237) as a pure
function.  `anchorParent` tells whether the node's immediate DOM parent is
an `<a>` element.  Children are built first (skipping excluded ones), their
aggregated metrics are combined, the node's own local metrics are added,
and finally, when the parent is an anchor, the node's aggregated
`char_count` is added to its `link_char_count`. -/
def buildNode (anchorParent : Bool) : DTree → DenseTree
  | .mk i k cs =>
      let children := buildForest (isAnchorElem k) cs
      let m1 := ((combinedMetrics children).combine (localMetrics k))
      let m2 :=
        if anchorParent then
          { m1 with link_char_count := m1.link_char_count + m1.char_count }
        else m1
      .mk ⟨i, m2, F.fin 0, none⟩ children
/-- The child loop of `build_density_tree`: excluded children are skipped
(their subtrees are never visited), retained children are built
recursively. -/
def buildForest (anchorParent : Bool) : DForest → DenseForest
  | .nil => .nil
  | .cons t ts =>
      if retained t.kind then
        .cons (buildNode anchorParent t) (buildForest anchorParent ts)
      else
        buildForest anchorParent ts
end

/-- Model of `normalize_denominator` (src/cetd.rs:10-15): map 0 to 1, otherwise the
value itself (as an f32). -/
def normalize_denominator (v : Nat) : ℚ :=
  if v = 0 then 1 else (v : ℚ)

/-- The `f32` constant `std::f32::consts::E`, carried exactly (the value of
the bit pattern `0x402DF854`). -/
def eF32 : ℚ := 2850325 / 1048576

/-- Model of `DensityTree::composite_text_density` (src/cetd.rs:78-114).  The `u32`
to `f32` casts are embedded exactly. -/
def composite_text_density (m bodyM : NodeMetrics) : F :=
  if m.char_count = 0 then F.fin 0
  else
    let ci : F := .fin m.char_count
    let ti : F := .fin (normalize_denominator m.tag_count)
    let nlci : F :=
      .fin (normalize_denominator (m.char_count - m.link_char_count))
    let lci : F := .fin m.link_char_count
    let cb : F := .fin (normalize_denominator bodyM.char_count)
    let lcb : F := .fin bodyM.link_char_count
    let lti : F := .fin (normalize_denominator m.link_tag_count)
    let density := ci.div ti
    let ln1 := (ci.div nlci).mul lci
    let ln2 := (lcb.div cb).mul ci
    let logBase := F.ln ((ln1.add ln2).add (.fin eF32))
    let value := (ci.div lcb).mul (ti.div lti)
    (value.log logBase).mul density

mutual
/-- Model of `DensityTree::calculate_density_tree` (src/cetd.rs:164-170): set every
node's density from its metrics and the (pre-pass) root metrics. -/
def calcDensityNode (bodyM : NodeMetrics) : DenseTree → DenseTree
  | .mk v cs =>
      .mk { v with density := composite_text_density v.metrics bodyM }
        (calcDensityForest bodyM cs)
/-- Forest version of `calcDensityNode`. -/
def calcDensityForest (bodyM : NodeMetrics) : DenseForest → DenseForest
  | .nil => .nil
  | .cons t ts => .cons (calcDensityNode bodyM t) (calcDensityForest bodyM ts)
end

/-- Model of `calculate_density_tree` applied to a whole tree: the body metrics are
the root's aggregated metrics. -/
def calculate_density_tree (t : DenseTree) : DenseTree :=
  calcDensityNode t.val.metrics t

/-- The densities of the nodes of a forest (used to sum over direct
children). -/
def forestDensities : DenseForest → List F
  | .nil => []
  | .cons t ts => t.val.density :: forestDensities ts

mutual
/-- Model of `DensityTree::calculate_density_sum` (src/cetd.rs:251-261): every
node's `density_sum` becomes the sum of its direct children's densities.
The pass never writes `density`, so iterating over a clone (as the code
does) is equivalent to this structural map. -/
def calcDensitySumNode : DenseTree → DenseTree
  | .mk v cs =>
      .mk { v with density_sum := some (F.sum (forestDensities cs)) }
        (calcDensitySumForest cs)
/-- Forest version of `calcDensitySumNode`. -/
def calcDensitySumForest : DenseForest → DenseForest
  | .nil => .nil
  | .cons t ts => .cons (calcDensitySumNode t) (calcDensitySumForest ts)
end

/-! ## Traversals -/

mutual
/-- Model of `Tree::nodes()` of `ego_tree` iterates the arena in insertion order;
for trees produced by `build_density_tree` (root pushed first, each child
pushed and completed before its next sibling) that order is exactly the
pre-order traversal. -/
def preorderNodes : DenseTree → List DensityNode
  | .mk v cs => v :: preorderForest cs
/-- Forest version of `preorderNodes`. -/
def preorderForest : DenseForest → List DensityNode
  | .nil => []
  | .cons t ts => preorderNodes t ++ preorderForest ts
end

mutual
/-- Pre-order traversal pairing every node with the densities of its strict
ancestors in the order produced by `NodeRef::ancestors()` — immediate
parent first, root last (src/cetd.rs:324-325).  `anc` is that list for the
current root. -/
def nodesWithAncT (anc : List F) : DenseTree → List (DensityNode × List F)
  | .mk v cs => (v, anc) :: nodesWithAncF (v.density :: anc) cs
/-- Forest version of `nodesWithAncT`. -/
def nodesWithAncF (anc : List F) : DenseForest → List (DensityNode × List F)
  | .nil => []
  | .cons t ts => nodesWithAncT anc t ++ nodesWithAncF anc ts
end

/-- All nodes of the tree, each paired with its strict-ancestor densities
(immediate parent first). -/
def nodesWithAnc (t : DenseTree) : List (DensityNode × List F) :=
  nodesWithAncT [] t

/-- Model of `Option::<f32>::partial_cmp` (`None` is below any `Some`; comparing two
`Some`s uses the `f32` partial order, undefined on NaN). -/
def pcmpOptF : Option F → Option F → Option Ordering
  | none, none => some .eq
  | none, some _ => some .lt
  | some _, none => some .gt
  | some a, some b => a.pcmp b

/-- The comparator of `get_max_density_sum_node` (src/cetd.rs:282-289):
compare `density_sum`, treating an undefined comparison as `Equal`. -/
def cmpDS (a b : DensityNode × List F) : Ordering :=
  (pcmpOptF a.1.density_sum b.1.density_sum).getD .eq

/-- Model of `Iterator::max_by`: fold keeping the later element unless it is
strictly below the current best (so the last maximal element wins). -/
def maxByLast (l : List (DensityNode × List F)) :
    Option (DensityNode × List F) :=
  match l with
  | [] => none
  | x :: xs => some (xs.foldl (fun best y =>
      if cmpDS y best = .lt then best else y) x)

/-- Model of `DensityTree::get_max_density_sum_node` (src/cetd.rs:282-289), together
with the ancestor densities of the returned node. -/
def getMaxDensitySumNode (t : DenseTree) : Option (DensityNode × List F) :=
  maxByLast (nodesWithAnc t)

/-! ## Region selection (from `extract_content`, src/cetd.rs:318-369) -/

/-- The threshold of `extract_content` (src/cetd.rs:323-332): the mean of
the ancestor densities of the max-density-sum node, or that node's own
density when it has no ancestors. -/
def extractThreshold (t : DenseTree) : F :=
  match getMaxDensitySumNode t with
  | none => F.fin 0
  | some (nd, ancs) =>
      if ancs.isEmpty then nd.density
      else (F.sum ancs).div (.fin (ancs.length : ℚ))

/-- The node predicate of the selection scan (src/cetd.rs:338-339):
`density >= threshold && density_sum.unwrap_or(0.0) > 0.0` in IEEE
comparison semantics. -/
def selPred (threshold : F) (n : DensityNode) : Bool :=
  F.ble threshold n.density && F.blt (F.fin 0) (n.density_sum.getD (F.fin 0))

/-- The scan loop of `extract_content` (src/cetd.rs:335-351): `c` is
`content_nodes`, `cur` is `current_block`; a qualifying node extends the
current block, a failing node flushes a non-empty block (keeping it only
when strictly longer than the best so far), and the final block is flushed
the same way after the loop. -/
def scanGo (p : DensityNode → Bool) (c cur : List DensityNode) :
    List DensityNode → List DensityNode
  | [] => if cur.length > c.length then cur else c
  | a :: as =>
      if p a then scanGo p c (cur ++ [a]) as
      else if cur.isEmpty then scanGo p c cur as
      else scanGo p (if cur.length > c.length then cur else c) [] as

/-- The `content_nodes` list selected by `extract_content`. -/
def selectContentNodes (t : DenseTree) : List DensityNode :=
  match getMaxDensitySumNode t with
  | none => []
  | some _ => scanGo (selPred (extractThreshold t)) [] [] (preorderNodes t)

/-! ## DOM text access (from `src/utils.rs`) -/

/-- Model of `DomExtractionError` (src/lib.rs:127-131): the only error kind crossing
the core boundary. -/
inductive DomExtractionError where
  | NodeAccessError (id : Nat)
deriving DecidableEq, Repr

mutual
/-- Resolve a node id in a document, additionally reporting whether the
found node's DOM parent is an anchor (`ego_tree`'s arena lookup; ids are
unique in documents produced by the parser, and the first match is
returned). -/
def resolveAnchorT (anchorParent : Bool) (i : Nat) :
    DTree → Option (Bool × DTree)
  | .mk j k cs =>
      if j = i then some (anchorParent, .mk j k cs)
      else resolveAnchorF (isAnchorElem k) i cs
/-- Forest version of `resolveAnchorT`. -/
def resolveAnchorF (anchorParent : Bool) (i : Nat) :
    DForest → Option (Bool × DTree)
  | .nil => none
  | .cons t ts =>
      match resolveAnchorT anchorParent i t with
      | some r => some r
      | none => resolveAnchorF anchorParent i ts
end

/-- Model of `utils::get_node_by_id` (src/utils.rs:20-28): resolve an id or fail
with `NodeAccessError` carrying that id. -/
def get_node_by_id (i : Nat) (doc : DTree) :
    Except DomExtractionError DTree :=
  match resolveAnchorT false i doc with
  | none => .error (.NodeAccessError i)
  | some (_, n) => .ok n

mutual
/-- The trimmed, non-empty text fragments of all descendants of a node, in
pre-order (the loop body of `get_node_text`, src/utils.rs:48-55). -/
def textFragmentsT : DTree → List UText
  | .mk _ k cs =>
      (match k with
       | .text t => if (trimClusters t).isEmpty then [] else [trimClusters t]
       | _ => []) ++ textFragmentsF cs
/-- Forest version of `textFragmentsT`. -/
def textFragmentsF : DForest → List UText
  | .nil => []
  | .cons t ts => textFragmentsT t ++ textFragmentsF ts
end

/-- Model of `utils::get_node_text` (src/utils.rs:42-57): join the trimmed
descendant text fragments with single spaces. -/
def get_node_text (i : Nat) (doc : DTree) :
    Except DomExtractionError UText :=
  match get_node_by_id i doc with
  | .error e => .error e
  | .ok n => .ok (List.intercalate [[32]] (textFragmentsT n))

/-! ## Text extraction (from `extract_content` and `src/unicode.rs`) -/

/-- Model of `unicode::normalize_text` (src/unicode.rs:70-79): NFC normalization
(performed by the external `unicode-normalization` crate and modelled as
the identity on the abstract cluster text) followed by
`split_whitespace`/join — collapse whitespace and trim the ends. -/
def normalize_text (u : UText) : UText :=
  List.intercalate [[32]] (u.splitOnP isWsCluster |>.filter (¬ ·.isEmpty))

/-- The text-collection loop of `extract_content` (src/cetd.rs:354-363):
fetch each selected node's text, skip exact duplicates, accumulate with a
trailing space. -/
def fetchLoop (doc : DTree) (acc : UText) (seen : List UText) :
    List DensityNode → Except DomExtractionError UText
  | [] => .ok acc
  | n :: ns =>
      match get_node_text n.node_id doc with
      | .error e => .error e
      | .ok txt =>
          if txt ∈ seen then fetchLoop doc acc seen ns
          else fetchLoop doc (acc ++ txt ++ [[32]]) (txt :: seen) ns

/-- Model of `DensityTree::extract_content` (src/cetd.rs:318-369). -/
def extract_content (t : DenseTree) (doc : DTree) :
    Except DomExtractionError UText :=
  match getMaxDensitySumNode t with
  | none => .ok []
  | some _ =>
      match fetchLoop doc [] [] (selectContentNodes t) with
      | .error e => .error e
      | .ok content => .ok (normalize_text content)

/-! ## Document entry point (from `from_document`, src/cetd.rs:40-60) -/

mutual
/-- Model of `document.select(&BODY_SELECTOR).next()`: the first element named
`body` in pre-order, together with whether its DOM parent is an anchor. -/
def findBodyT (anchorParent : Bool) : DTree → Option (Bool × DTree)
  | .mk i k cs =>
      if k = .element "body" then some (anchorParent, .mk i k cs)
      else findBodyF (isAnchorElem k) cs
/-- Forest version of `findBodyT`. -/
def findBodyF (anchorParent : Bool) : DForest → Option (Bool × DTree)
  | .nil => none
  | .cons t ts =>
      match findBodyT anchorParent t with
      | some r => some r
      | none => findBodyF anchorParent ts
end

/-- Model of `DensityTree::from_document` (src/cetd.rs:40-60).  `none` models the
`.expect` panic on a document with no body element, which the HTML parser
never produces; the `.error` branch is the `ok_or(NodeAccessError)` on the
body id lookup. -/
def from_document (doc : DTree) :
    Option (Except DomExtractionError DenseTree) :=
  match findBodyT false doc with
  | none => none
  | some (_, b) =>
      match resolveAnchorT false b.id doc with
      | none => some (.error (.NodeAccessError b.id))
      | some (fl, n) => some (.ok (calculate_density_tree (buildNode fl n)))

/-! ## Specification-side recomputations -/

mutual
/-- Independent recomputation of the aggregate character count of a
retained subtree: the grapheme counts of the trimmed text of all
non-excluded text descendants (the node itself included). -/
def subtreeChars : DTree → Nat
  | .mk _ k cs =>
      (match k with
       | .text t => count_graphemes (trimClusters t)
       | _ => 0) + subtreeCharsF cs
/-- Forest version of `subtreeChars`, skipping excluded children. -/
def subtreeCharsF : DForest → Nat
  | .nil => 0
  | .cons t ts =>
      (if retained t.kind then subtreeChars t else 0) + subtreeCharsF ts
end

mutual
/-- Independent recomputation of the aggregate tag count of a retained
subtree: the number of non-excluded element nodes, the node itself
included when it is an element. -/
def subtreeTags : DTree → Nat
  | .mk _ k cs =>
      (match k with
       | .element _ => 1
       | _ => 0) + subtreeTagsF cs
/-- Forest version of `subtreeTags`, skipping excluded children. -/
def subtreeTagsF : DForest → Nat
  | .nil => 0
  | .cons t ts =>
      (if retained t.kind then subtreeTags t else 0) + subtreeTagsF ts
end

mutual
/-- Structural check that a built density tree mirrors the retained part of
a DOM tree and that every density node's `char_count` and `tag_count`
equal the independently recomputed totals over its retained subtree. -/
def checkAgg : DTree → DenseTree → Bool
  | .mk i k cs, .mk v ds =>
      v.node_id == i &&
      v.metrics.char_count == subtreeChars (.mk i k cs) &&
      v.metrics.tag_count == subtreeTags (.mk i k cs) &&
      checkAggF cs ds
/-- Forest version of `checkAgg`: the density children correspond, in
order, to the retained DOM children. -/
def checkAggF : DForest → DenseForest → Bool
  | .nil, .nil => true
  | .nil, .cons _ _ => false
  | .cons t ts, ds =>
      if retained t.kind then
        match ds with
        | .nil => false
        | .cons d ds' => checkAgg t d && checkAggF ts ds'
      else checkAggF ts ds
end

mutual
/-- Well-formedness of a DOM tree as produced by the HTML parser: text and
comment nodes are leaves. -/
def wfTree : DTree → Bool
  | .mk _ k cs =>
      (match k, cs with
       | .text _, .cons _ _ => false
       | .comment, .cons _ _ => false
       | _, _ => true) && wfForest cs
/-- Forest version of `wfTree`. -/
def wfForest : DForest → Bool
  | .nil => true
  | .cons t ts => wfTree t && wfForest ts
end

mutual
/-- Check that, at every retained text node, the built density node records
`char_count` equal to the grapheme count of the trimmed text. -/
def checkTextChar : DTree → DenseTree → Bool
  | .mk _ k cs, .mk v ds =>
      (match k with
       | .text t => v.metrics.char_count == count_graphemes (trimClusters t)
       | _ => true) && checkTextCharF cs ds
/-- Forest version of `checkTextChar`: density children correspond, in
order, to the retained DOM children. -/
def checkTextCharF : DForest → DenseForest → Bool
  | .nil, _ => true
  | .cons t ts, ds =>
      if retained t.kind then
        match ds with
        | .nil => false
        | .cons d ds' => checkTextChar t d && checkTextCharF ts ds'
      else checkTextCharF ts ds
end

mutual
/-- Check that every node's `density_sum` is present and equals the IEEE
sum of its direct children's densities. -/
def checkDensitySum : DenseTree → Bool
  | .mk v cs =>
      v.density_sum == some (F.sum (forestDensities cs)) &&
      checkDensitySumF cs
/-- Forest version of `checkDensitySum`. -/
def checkDensitySumF : DenseForest → Bool
  | .nil => true
  | .cons t ts => checkDensitySum t && checkDensitySumF ts
end

mutual
/-- Check that every leaf's `density_sum` is present and equal to `0.0`. -/
def checkLeafSumZero : DenseTree → Bool
  | .mk v .nil => v.density_sum == some (F.fin 0)
  | .mk _ cs => checkLeafSumZeroF cs
/-- Forest version of `checkLeafSumZero`. -/
def checkLeafSumZeroF : DenseForest → Bool
  | .nil => true
  | .cons t ts => checkLeafSumZero t && checkLeafSumZeroF ts
end

/-! ## Maximal runs of a list -/

/-- Fact: `dropWhile` never lengthens a list. -/
theorem length_dropWhile_le (p : α → Bool) (as : List α) :
    (as.dropWhile p).length ≤ as.length := by
  induction as with
  | nil => simp [List.dropWhile]
  | cons a as ih =>
    simp only [List.dropWhile]
    by_cases h : p a <;> simp [h]
    omega

/-- The maximal runs of consecutive elements satisfying `p`, in order of
appearance.  Elements failing `p` separate runs and belong to none. -/
def runs (p : α → Bool) : List α → List (List α)
  | [] => []
  | a :: as =>
      if p a then (a :: as.takeWhile p) :: runs p (as.dropWhile p)
      else runs p as
termination_by l => l.length
decreasing_by
  · simp only [List.length_cons]
    exact Nat.lt_succ_of_le (length_dropWhile_le p as)
  · simp [Nat.lt_succ_self]

/-- Keep the longer of the best run so far and a candidate run; ties keep
the earlier one. -/
def pickRun (c r : List α) : List α :=
  if r.length > c.length then r else c

/-- The longest run by element count, the first such run winning ties. -/
def pickLongest (rs : List (List α)) : List α :=
  rs.foldl pickRun []

/-! ## Lemmas about the builder -/

/-- Unfolding equation for `buildNode`. -/
theorem buildNode_eq (b : Bool) (i : Nat) (k : NodeKind) (cs : DForest) :
    buildNode b (.mk i k cs) =
      .mk ⟨i,
           (if b then
              { ((combinedMetrics (buildForest (isAnchorElem k) cs)).combine
                  (localMetrics k)) with
                link_char_count :=
                  ((combinedMetrics (buildForest (isAnchorElem k) cs)).combine
                    (localMetrics k)).link_char_count +
                  ((combinedMetrics (buildForest (isAnchorElem k) cs)).combine
                    (localMetrics k)).char_count }
            else
              ((combinedMetrics (buildForest (isAnchorElem k) cs)).combine
                (localMetrics k))),
           F.fin 0, none⟩
        (buildForest (isAnchorElem k) cs) := by
  simp [buildNode]

/-- The builder's per-node local `char_count`. -/
theorem localMetrics_char (k : NodeKind) :
    (localMetrics k).char_count =
      (match k with
       | .text t => count_graphemes (trimClusters t)
       | _ => 0) := by
  cases k <;> rfl

/-- The builder's per-node local `tag_count`. -/
theorem localMetrics_tag (k : NodeKind) :
    (localMetrics k).tag_count =
      (match k with
       | .element _ => 1
       | _ => 0) := by
  cases k <;> rfl

mutual
/-- The aggregated `char_count` and `tag_count` of a built node equal the
independently recomputed totals over the retained subtree. -/
theorem buildNode_metrics (b : Bool) (d : DTree) :
    (buildNode b d).val.metrics.char_count = subtreeChars d ∧
    (buildNode b d).val.metrics.tag_count = subtreeTags d := by
  match d with
  | .mk i k cs =>
    have hf := buildForest_metrics (isAnchorElem k) cs
    rw [buildNode_eq]
    cases b <;>
      simp only [DenseTree.val, subtreeChars, subtreeTags, if_true, if_false,
        Bool.false_eq_true, NodeMetrics.combine, localMetrics_char,
        localMetrics_tag] <;>
      omega
/-- Forest version of `buildNode_metrics`. -/
theorem buildForest_metrics (b : Bool) (cs : DForest) :
    (combinedMetrics (buildForest b cs)).char_count = subtreeCharsF cs ∧
    (combinedMetrics (buildForest b cs)).tag_count = subtreeTagsF cs := by
  match cs with
  | .nil => simp [buildForest, combinedMetrics, subtreeCharsF, subtreeTagsF,
      NodeMetrics.new]
  | .cons t ts =>
    have h1 := buildNode_metrics b t
    have h2 := buildForest_metrics b ts
    by_cases hr : retained t.kind = true <;>
      simp only [buildForest, hr, if_true, if_false, combinedMetrics,
        subtreeCharsF, subtreeTagsF, NodeMetrics.combine,
        Bool.false_eq_true] <;>
      simp [hr] at * <;>
      omega
end

mutual
/-- The structural aggregation check holds on every built subtree. -/
theorem checkAgg_build (b : Bool) (d : DTree) :
    checkAgg d (buildNode b d) = true := by
  match d with
  | .mk i k cs =>
    have hm := buildNode_metrics b (.mk i k cs)
    have hf := checkAggF_build (isAnchorElem k) cs
    rw [buildNode_eq] at hm ⊢
    cases b <;>
      simp only [checkAgg, DenseTree.val] at hm ⊢ <;>
      simp_all
/-- Forest version of `checkAgg_build`. -/
theorem checkAggF_build (b : Bool) (cs : DForest) :
    checkAggF cs (buildForest b cs) = true := by
  match cs with
  | .nil => simp [buildForest, checkAggF]
  | .cons t ts =>
    have h1 := checkAgg_build b t
    have h2 := checkAggF_build b ts
    by_cases hr : retained t.kind = true <;>
      simp only [buildForest, hr, if_true, if_false, checkAggF,
        Bool.false_eq_true] <;>
      simp_all
end

mutual
/-- On well-formed DOM trees, every retained text node's built density node
records the grapheme count of its trimmed text. -/
theorem checkTextChar_build (b : Bool) (d : DTree) (h : wfTree d = true) :
    checkTextChar d (buildNode b d) = true := by
  match d with
  | .mk i k cs =>
    have hm := buildNode_metrics b (.mk i k cs)
    have hf : checkTextCharF cs (buildForest (isAnchorElem k) cs) = true := by
      apply checkTextCharF_build
      simp only [wfTree, Bool.and_eq_true] at h
      exact h.2
    rw [buildNode_eq] at hm ⊢
    simp only [checkTextChar, Bool.and_eq_true]
    refine ⟨?_, hf⟩
    match k, h with
    | .text t, h =>
      simp only [wfTree, Bool.and_eq_true] at h
      match cs, h with
      | .nil, _ =>
        simp only [subtreeChars, subtreeCharsF, DenseTree.val] at hm
        cases b <;> simp_all
    | .element n, _ => simp
    | .comment, _ => simp
    | .document, _ => simp
    | .other, _ => simp
/-- Forest version of `checkTextChar_build`. -/
theorem checkTextCharF_build (b : Bool) (cs : DForest)
    (h : wfForest cs = true) : checkTextCharF cs (buildForest b cs) = true := by
  match cs with
  | .nil => simp [buildForest, checkTextCharF]
  | .cons t ts =>
    simp only [wfForest, Bool.and_eq_true] at h
    have h1 := checkTextChar_build b t h.1
    have h2 := checkTextCharF_build b ts h.2
    by_cases hr : retained t.kind = true <;>
      simp only [buildForest, hr, if_true, if_false, checkTextCharF,
        Bool.false_eq_true] <;>
      simp_all
end

/-! ## Lemmas about IEEE sums -/

namespace F

/-- IEEE addition (exact model) is commutative. -/
theorem add_comm (a b : F) : add a b = add b a := by
  cases a <;> cases b <;> simp [add] <;> ring

/-- IEEE addition (exact model) is associative. -/
theorem add_assoc (a b c : F) : add (add a b) c = add a (add b c) := by
  cases a <;> cases b <;> cases c <;> simp [add] <;> ring

/-- Shifting one operand through a left fold of IEEE additions. -/
theorem foldl_add_shift (l : List F) (x a : F) :
    l.foldl add (add x a) = add (l.foldl add x) a := by
  induction l generalizing x with
  | nil => simp
  | cons b bs ih =>
    simp only [List.foldl_cons]
    rw [add_assoc, add_comm a b, ← add_assoc, ih]

/-- Appending one element to an IEEE sum. -/
theorem sum_append_one (l : List F) (a : F) :
    sum (l ++ [a]) = add (sum l) a := by
  simp only [sum, List.foldl_append, List.foldl_cons, List.foldl_nil]

/-- An IEEE sum is invariant under list reversal (in the exact model). -/
theorem sum_reverse (l : List F) : sum l.reverse = sum l := by
  induction l with
  | nil => rfl
  | cons a as ih =>
    have : sum (a :: as) = add (sum as) a := by
      simp only [sum, List.foldl_cons]
      rw [show add (fin 0) a = add a (fin 0) from add_comm _ _]
      rw [show add a (fin 0) = add (fin 0) a from add_comm _ _]
      exact foldl_add_shift as (fin 0) a
    rw [List.reverse_cons, sum_append_one, ih, this]

end F

/-! ## Lemmas about the density-sum pass -/

mutual
/-- Densities are untouched by the density-sum pass. -/
theorem calcDensitySum_densities (cs : DenseForest) :
    forestDensities (calcDensitySumForest cs) = forestDensities cs := by
  match cs with
  | .nil => rfl
  | .cons t ts =>
    have h1 := calcDensitySum_density t
    have h2 := calcDensitySum_densities ts
    simp only [calcDensitySumForest, forestDensities, h1, h2]
/-- Node version of `calcDensitySum_densities`. -/
theorem calcDensitySum_density (t : DenseTree) :
    (calcDensitySumNode t).val.density = t.val.density := by
  match t with
  | .mk v cs => simp [calcDensitySumNode, DenseTree.val]
end

mutual
/-- After the density-sum pass, every node's `density_sum` equals the IEEE
sum of its direct children's densities. -/
theorem checkDensitySum_calc (t : DenseTree) :
    checkDensitySum (calcDensitySumNode t) = true := by
  match t with
  | .mk v cs =>
    have hf := checkDensitySumF_calc cs
    simp only [calcDensitySumNode, checkDensitySum,
      calcDensitySum_densities, hf, Bool.and_eq_true, beq_iff_eq, and_true]
/-- Forest version of `checkDensitySum_calc`. -/
theorem checkDensitySumF_calc (cs : DenseForest) :
    checkDensitySumF (calcDensitySumForest cs) = true := by
  match cs with
  | .nil => rfl
  | .cons t ts =>
    have h1 := checkDensitySum_calc t
    have h2 := checkDensitySumF_calc ts
    simp only [calcDensitySumForest, checkDensitySumF, h1, h2, Bool.and_self]
end

mutual
/-- After the density-sum pass, every leaf's `density_sum` is `0.0`. -/
theorem checkLeafSumZero_calc (t : DenseTree) :
    checkLeafSumZero (calcDensitySumNode t) = true := by
  match t with
  | .mk v .nil =>
    simp [calcDensitySumNode, calcDensitySumForest, checkLeafSumZero,
      forestDensities, F.sum]
  | .mk v (.cons c cs) =>
    have hf := checkLeafSumZeroF_calc (.cons c cs)
    simp only [calcDensitySumNode, calcDensitySumForest] at hf ⊢
    exact hf
/-- Forest version of `checkLeafSumZero_calc`. -/
theorem checkLeafSumZeroF_calc (cs : DenseForest) :
    checkLeafSumZeroF (calcDensitySumForest cs) = true := by
  match cs with
  | .nil => rfl
  | .cons t ts =>
    have h1 := checkLeafSumZero_calc t
    have h2 := checkLeafSumZeroF_calc ts
    simp only [calcDensitySumForest, checkLeafSumZeroF, h1, h2, Bool.and_self]
end

/-! ## The scan computes the longest maximal run -/

/-- The runs still to be accounted for when the scan holds a (possibly
empty) current block `cur`: a non-empty block is continued by the
satisfying prefix of the rest of the list. -/
def consRuns (p : α → Bool) (cur l : List α) : List (List α) :=
  if cur.isEmpty then runs p l
  else (cur ++ l.takeWhile p) :: runs p (l.dropWhile p)

/-- Fact: `runs` on a list headed by a satisfying element. -/
theorem runs_cons_pos (p : α → Bool) (a : α) (as : List α) (h : p a = true) :
    runs p (a :: as) = (a :: as.takeWhile p) :: runs p (as.dropWhile p) := by
  rw [runs]
  simp [h]

/-- Fact: `runs` on a list headed by a failing element. -/
theorem runs_cons_neg (p : α → Bool) (a : α) (as : List α) (h : p a = false) :
    runs p (a :: as) = runs p as := by
  rw [runs]
  simp [h]

/-- The scan loop of `extract_content` folds `pickRun` over the maximal
runs: starting from best-so-far `c` and current block `cur`, it returns
the first-longest among `c` and the remaining runs. -/
theorem scanGo_eq_foldl (p : DensityNode → Bool) (l : List DensityNode)
    (c cur : List DensityNode) :
    scanGo p c cur l = (consRuns p cur l).foldl pickRun c := by
  induction l generalizing c cur with
  | nil =>
    by_cases hc : cur.isEmpty <;>
      simp_all [scanGo, consRuns, runs, pickRun, List.isEmpty_iff]
  | cons a as ih =>
    by_cases ha : p a = true
    · by_cases hc : cur.isEmpty
      · have hnil : cur = [] := List.isEmpty_iff.mp hc
        subst hnil
        simp only [scanGo, ha, if_true, List.nil_append]
        rw [ih, consRuns, consRuns]
        simp only [List.isEmpty_cons, List.isEmpty_nil, if_true,
          Bool.false_eq_true, if_false, runs_cons_pos p a as ha,
          List.nil_append, List.singleton_append]
      · simp only [scanGo, ha, if_true]
        rw [ih, consRuns, consRuns]
        have h1 : (cur ++ [a]).isEmpty = false := by
          cases cur <;> simp
        have h2 : cur.isEmpty = false := by
          cases cur <;> simp_all
        simp only [h1, h2, Bool.false_eq_true, if_false,
          List.takeWhile_cons, List.dropWhile_cons, ha, if_true,
          List.append_assoc, List.cons_append, List.nil_append]
    · have ha' : p a = false := by simpa using ha
      by_cases hc : cur.isEmpty
      · have hnil : cur = [] := List.isEmpty_iff.mp hc
        subst hnil
        simp only [scanGo, ha', Bool.false_eq_true, if_false,
          List.isEmpty_nil, if_true]
        rw [ih, consRuns, consRuns]
        simp [runs_cons_neg p a as ha']
      · have h2 : cur.isEmpty = false := by
          cases cur <;> simp_all
        simp only [scanGo, ha', Bool.false_eq_true, h2, if_false]
        rw [ih, consRuns, consRuns]
        simp only [List.isEmpty_nil, if_true, h2, Bool.false_eq_true,
          if_false, List.takeWhile_cons, List.dropWhile_cons, ha',
          List.append_nil, runs_cons_neg p a as ha', List.foldl_cons]
        rfl

/-- The scan from the initial empty state returns the first-longest
maximal run. -/
theorem scanGo_pickLongest (p : DensityNode → Bool) (l : List DensityNode) :
    scanGo p [] [] l = pickLongest (runs p l) := by
  rw [scanGo_eq_foldl]
  simp [consRuns, pickLongest]

/-- Every element of every maximal run satisfies the predicate: a run never
bridges across a failing element. -/
theorem runs_sat (p : α → Bool) (l : List α) :
    ∀ r ∈ runs p l, ∀ x ∈ r, p x = true := by
  induction l using runs.induct p with
  | case1 => simp [runs]
  | case2 a as h ih =>
    rw [runs_cons_pos p a as h]
    intro r hr x hx
    rcases List.mem_cons.mp hr with hr | hr
    · subst hr
      rcases List.mem_cons.mp hx with hx | hx
      · subst hx; exact h
      · exact List.mem_takeWhile_imp hx
    · exact ih r hr x hx
  | case3 a as h ih =>
    rw [runs_cons_neg p a as (by simpa using h)]
    exact ih

/-- A list with no satisfying element has no runs. -/
theorem runs_nil_of_none (p : α → Bool) (l : List α)
    (h : ∀ x ∈ l, p x = false) : runs p l = [] := by
  induction l with
  | nil => simp [runs]
  | cons a as ih =>
    rw [runs_cons_neg p a as (h a (by simp))]
    exact ih fun x hx => h x (by simp [hx])

/-! ## Claim theorems -/

/-- C1: after `build_density_tree` completes on any DOM subtree (under any
parent-anchor context), every `DensityNode`'s `char_count` equals the total
grapheme count over all non-excluded text descendants of its retained
subtree, and its `tag_count` equals the number of non-excluded element
nodes in its retained subtree (itself included when it is an element) —
checked by independent recomputation at every node of the built tree. -/
theorem C1_build_aggregates_subtree_metrics (d : DTree) (b : Bool) :
    checkAgg d (buildNode b d) = true :=
  checkAgg_build b d

/-- C4: for every text node retained during tree building (in a
well-formed DOM, where text nodes are leaves), the recorded `char_count`
is the number of grapheme clusters of the trimmed text; and grapheme
count, byte length and code-point count genuinely differ (witnessed by
the text `e` + combining acute, one cluster of two code points and three
UTF-8 bytes). -/
theorem C4_char_count_is_grapheme_count :
    (∀ (d : DTree) (b : Bool), wfTree d = true →
      checkTextChar d (buildNode b d) = true) ∧
    count_graphemes [[101, 769]] = 1 ∧
    count_graphemes [[101, 769]] ≠ byteLen [[101, 769]] ∧
    count_graphemes [[101, 769]] ≠ count_code_points [[101, 769]] :=
  ⟨fun d b h => checkTextChar_build b d h, by decide, by decide, by decide⟩

/-- Witness for C4: the universally quantified part applied to a concrete
one-text-node document. -/
theorem C4_witness :
    wfTree (.mk 0 (.text [[101, 769]]) .nil) = true ∧
    checkTextChar (.mk 0 (.text [[101, 769]]) .nil)
      (buildNode false (.mk 0 (.text [[101, 769]]) .nil)) = true :=
  ⟨by decide,
   C4_char_count_is_grapheme_count.1 (.mk 0 (.text [[101, 769]]) .nil) false
     (by decide)⟩

/-- C5: building a node with the parent-is-anchor flag set leaves its
children and all other root fields unchanged and adds exactly the node's
own aggregated `char_count` to its `link_char_count`; the flag is not
propagated into the subtree (the children are built identically), so link
flagging applies exactly one level below the anchor. -/
theorem C5_anchor_parent_link_chars (d : DTree) :
    (buildNode true d).children = (buildNode false d).children ∧
    (buildNode true d).val.node_id = (buildNode false d).val.node_id ∧
    (buildNode true d).val.metrics.char_count =
      (buildNode false d).val.metrics.char_count ∧
    (buildNode true d).val.metrics.tag_count =
      (buildNode false d).val.metrics.tag_count ∧
    (buildNode true d).val.metrics.link_tag_count =
      (buildNode false d).val.metrics.link_tag_count ∧
    (buildNode true d).val.metrics.link_char_count =
      (buildNode false d).val.metrics.link_char_count +
      (buildNode false d).val.metrics.char_count := by
  match d with
  | .mk i k cs =>
    rw [buildNode_eq, buildNode_eq]
    simp [DenseTree.val, DenseTree.children]

/-- C7: after `calculate_density_sum` runs, every node's `density_sum` is
present and equals the sum of the densities of its direct children only,
and every leaf's `density_sum` is `0.0`. -/
theorem C7_density_sum_is_children_sum (t : DenseTree) :
    checkDensitySum (calcDensitySumNode t) = true ∧
    checkLeafSumZero (calcDensitySumNode t) = true :=
  ⟨checkDensitySum_calc t, checkLeafSumZero_calc t⟩

/-- A concrete two-node density tree used by witnesses. -/
def twoNodeTree : DenseTree :=
  .mk (DensityNode.new 0) (.cons (.mk (DensityNode.new 1) .nil) .nil)

/-- Reversal preserves emptiness. -/
theorem isEmpty_reverse (l : List α) : l.reverse.isEmpty = l.isEmpty := by
  cases l <;> simp

/-- C2: when a maximum density-sum node exists, the region selected by
`extract_content` is the first-longest (by node count) maximal run of
consecutive nodes, in the tree's fixed construction (pre-order) traversal,
satisfying `density >= threshold` with a present, positive `density_sum`;
and every maximal run consists only of satisfying nodes, so a run never
bridges across a failing node. -/
theorem C2_selection_is_longest_run (t : DenseTree)
    (p : DensityNode × List F) (h : getMaxDensitySumNode t = some p) :
    selectContentNodes t =
      pickLongest (runs (selPred (extractThreshold t)) (preorderNodes t)) ∧
    ∀ r ∈ runs (selPred (extractThreshold t)) (preorderNodes t),
      ∀ x ∈ r, selPred (extractThreshold t) x = true := by
  constructor
  · simp only [selectContentNodes, h]
    exact scanGo_pickLongest _ _
  · exact runs_sat _ _

/-- Witness for C2 at a concrete two-node tree. -/
theorem C2_witness :
    getMaxDensitySumNode twoNodeTree = some (DensityNode.new 1, [F.fin 0]) ∧
    selectContentNodes twoNodeTree
      = pickLongest (runs (selPred (extractThreshold twoNodeTree))
          (preorderNodes twoNodeTree)) :=
  ⟨rfl,
   (C2_selection_is_longest_run twoNodeTree (DensityNode.new 1, [F.fin 0])
     rfl).1⟩

/-- C6: the selection threshold equals the arithmetic mean of the density
values of the strict ancestors of the maximum density-sum node taken from
the root down to its immediate parent (the reverse of the bottom-up order
the code iterates in); when that node is the root and has no ancestors the
threshold is the node's own density. -/
theorem C6_threshold_is_ancestor_mean (t : DenseTree) (nd : DensityNode)
    (ancs : List F) (h : getMaxDensitySumNode t = some (nd, ancs)) :
    extractThreshold t =
      if ancs.reverse.isEmpty then nd.density
      else (F.sum ancs.reverse).div (.fin ((ancs.reverse.length : ℚ))) := by
  simp only [extractThreshold, h, isEmpty_reverse, F.sum_reverse,
    List.length_reverse]

/-- Witness for C6 at a concrete two-node tree. -/
theorem C6_witness :
    getMaxDensitySumNode twoNodeTree = some (DensityNode.new 1, [F.fin 0]) ∧
    extractThreshold twoNodeTree
      = if ([F.fin 0].reverse).isEmpty then (DensityNode.new 1).density
        else (F.sum [F.fin 0].reverse).div
              (.fin (([F.fin 0].reverse.length : Nat) : ℚ)) :=
  ⟨rfl, C6_threshold_is_ancestor_mean twoNodeTree (DensityNode.new 1)
    [F.fin 0] rfl⟩

/-- C8: whenever no node of the density tree satisfies the selection
predicate, `extract_content` returns `Ok` with an empty extraction result
rather than an error. -/
theorem C8_no_qualifying_node_gives_empty_ok (t : DenseTree) (doc : DTree)
    (h : ∀ n ∈ preorderNodes t, selPred (extractThreshold t) n = false) :
    extract_content t doc = .ok [] := by
  unfold extract_content
  cases hm : getMaxDensitySumNode t with
  | none => rfl
  | some p =>
    have hsel : selectContentNodes t = [] := by
      simp only [selectContentNodes, hm]
      rw [scanGo_pickLongest, runs_nil_of_none _ _ h]
      rfl
    rw [hsel]
    rfl

/-- A document whose body contains only excluded content: a lone
`<script>` element with text inside. -/
def docScriptOnly : DTree :=
  .mk 0 .document
    (.cons
      (.mk 1 (.element "html")
        (.cons
          (.mk 2 (.element "body")
            (.cons
              (.mk 3 (.element "script")
                (.cons (.mk 4 (.text [[97], [98]]) .nil) .nil))
              .nil))
          .nil))
      .nil)

/-- The density tree `from_document` builds for `docScriptOnly`: just the
body node, with one tag, no text and density `0.0`. -/
def treeScriptOnly : DenseTree :=
  .mk ⟨2, ⟨0, 1, 0, 0⟩, F.fin 0, none⟩ .nil

/-- Witness for C8: the full pipeline on the script-only document yields a
one-node tree whose only node fails the selection predicate, and
extraction returns `Ok` with the empty result. -/
theorem C8_witness :
    from_document docScriptOnly = some (.ok treeScriptOnly) ∧
    (∀ n ∈ preorderNodes (calcDensitySumNode treeScriptOnly),
      selPred (extractThreshold (calcDensitySumNode treeScriptOnly)) n
        = false) ∧
    extract_content (calcDensitySumNode treeScriptOnly) docScriptOnly
      = .ok [] := by
  refine ⟨rfl, ?_, ?_⟩
  · intro n hn
    simp only [calcDensitySumNode, treeScriptOnly, calcDensitySumForest,
      preorderNodes, preorderForest, forestDensities, F.sum,
      List.foldl_nil, List.mem_singleton] at hn
    subst hn
    simp [selPred, F.blt, extractThreshold]
  · apply C8_no_qualifying_node_gives_empty_ok
    intro n hn
    simp only [calcDensitySumNode, treeScriptOnly, calcDensitySumForest,
      preorderNodes, preorderForest, forestDensities, F.sum,
      List.foldl_nil, List.mem_singleton] at hn
    subst hn
    simp [selPred, F.blt, extractThreshold]

/-- Fact: `get_node_text` fails exactly when the id does not resolve, and the
error carries the queried id. -/
theorem get_node_text_error_iff (i : Nat) (doc : DTree)
    (e : DomExtractionError) :
    get_node_text i doc = .error e ↔
      resolveAnchorT false i doc = none ∧ e = .NodeAccessError i := by
  unfold get_node_text get_node_by_id
  cases hr : resolveAnchorT false i doc with
  | none =>
    simp only [true_and, hr]
    constructor
    · intro h
      cases h
      rfl
    · intro h
      subst h
      rfl
  | some r => simp [hr]

/-- Any error escaping the text-collection loop of `extract_content`
originates from `get_node_text` on some unresolvable node id. -/
theorem fetchLoop_error_unresolvable (doc : DTree) (ns : List DensityNode)
    (acc : UText) (seen : List UText) (e : DomExtractionError)
    (h : fetchLoop doc acc seen ns = .error e) :
    ∃ i, e = .NodeAccessError i ∧ resolveAnchorT false i doc = none := by
  induction ns generalizing acc seen with
  | nil => simp [fetchLoop] at h
  | cons n ns ih =>
    rw [fetchLoop] at h
    cases hg : get_node_text n.node_id doc with
    | error e2 =>
      rw [hg] at h
      have he : e2 = e := by simpa using h
      rw [← he]
      have hiff := (get_node_text_error_iff n.node_id doc e2).mp hg
      exact ⟨n.node_id, hiff.2, hiff.1⟩
    | ok txt =>
      rw [hg] at h
      by_cases hs : txt ∈ seen
      · simp only [hs, if_true] at h
        exact ih _ _ h
      · simp only [hs, if_false] at h
        exact ih _ _ h

/-- C9: text extraction for a node fails with `NodeAccessError` carrying
that node's id exactly when the id cannot be resolved in the queried DOM
document, and no other error is produced either by `get_node_text` or by
`extract_content`'s per-node text fetching. -/
theorem C9_node_access_error_iff_unresolvable :
    (∀ (i : Nat) (doc : DTree) (e : DomExtractionError),
      get_node_text i doc = .error e ↔
        resolveAnchorT false i doc = none ∧ e = .NodeAccessError i) ∧
    (∀ (t : DenseTree) (doc : DTree) (e : DomExtractionError),
      extract_content t doc = .error e →
        ∃ i, e = .NodeAccessError i ∧ resolveAnchorT false i doc = none) := by
  refine ⟨get_node_text_error_iff, ?_⟩
  intro t doc e h
  unfold extract_content at h
  cases hm : getMaxDensitySumNode t with
  | none => rw [hm] at h; cases h
  | some p =>
    rw [hm] at h
    cases hf : fetchLoop doc [] [] (selectContentNodes t) with
    | error e' =>
      rw [hf] at h
      cases h
      exact fetchLoop_error_unresolvable doc _ _ _ _ hf
    | ok content => rw [hf] at h; cases h

/-- Witness for C9: on a one-node document, querying an absent id fails
with `NodeAccessError` of exactly that id. -/
theorem C9_witness :
    get_node_text 5 (.mk 0 (.element "body") .nil)
      = .error (.NodeAccessError 5) :=
  (C9_node_access_error_iff_unresolvable.1 5 (.mk 0 (.element "body") .nil)
    (.NodeAccessError 5)).mpr ⟨rfl, rfl⟩

mutual
/-- A node found by the body search resolves by its id in the same tree. -/
theorem findBody_resolvable (pa pa' : Bool) (d : DTree) (fl : Bool)
    (b : DTree) (h : findBodyT pa d = some (fl, b)) :
    ∃ r, resolveAnchorT pa' b.id d = some r := by
  match d with
  | .mk i k cs =>
    rw [findBodyT] at h
    by_cases hk : k = NodeKind.element "body"
    · rw [if_pos hk] at h
      cases h
      exact ⟨(pa', .mk i k cs), by simp [resolveAnchorT, DTree.id]⟩
    · rw [if_neg hk] at h
      rw [resolveAnchorT]
      by_cases hid : i = b.id
      · exact ⟨(pa', .mk i k cs), by rw [if_pos hid]⟩
      · rw [if_neg hid]
        exact findBody_resolvableF (isAnchorElem k) (isAnchorElem k) cs fl b h
/-- Forest version of `findBody_resolvable`. -/
theorem findBody_resolvableF (pa pa' : Bool) (cs : DForest) (fl : Bool)
    (b : DTree) (h : findBodyF pa cs = some (fl, b)) :
    ∃ r, resolveAnchorF pa' b.id cs = some r := by
  match cs with
  | .nil => rw [findBodyF] at h; cases h
  | .cons t ts =>
    rw [findBodyF] at h
    rw [resolveAnchorF]
    cases hb : findBodyT pa t with
    | some r0 =>
      rw [hb] at h
      cases h
      obtain ⟨r, hr⟩ := findBody_resolvable pa pa' t fl b hb
      exact ⟨r, by rw [hr]⟩
    | none =>
      rw [hb] at h
      cases hres : resolveAnchorT pa' b.id t with
      | some r1 => exact ⟨r1, rfl⟩
      | none => exact findBody_resolvableF pa pa' ts fl b h
end

/-- C10: for every document in which the HTML parser's guaranteed body
element is found, `from_document` returns `Ok`; the `NodeAccessError`
branch on the body node id is unreachable, so the constructor never
fails. -/
theorem C10_from_document_never_fails (doc : DTree) (fl : Bool) (b : DTree)
    (h : findBodyT false doc = some (fl, b)) :
    ∃ t, from_document doc = some (.ok t) := by
  obtain ⟨r, hr⟩ := findBody_resolvable false false doc fl b h
  obtain ⟨r1, r2⟩ := r
  refine ⟨calculate_density_tree (buildNode r1 r2), ?_⟩
  simp only [from_document, h, hr]

/-- Witness for C10 on the concrete script-only document. -/
theorem C10_witness :
    findBodyT false docScriptOnly
      = some (false, .mk 2 (.element "body")
          (.cons (.mk 3 (.element "script")
            (.cons (.mk 4 (.text [[97], [98]]) .nil) .nil)) .nil)) ∧
    ∃ t, from_document docScriptOnly = some (.ok t) :=
  ⟨rfl, C10_from_document_never_fails docScriptOnly false _ rfl⟩

/-! ## Finiteness of the composite density -/

namespace F

/-- Division of finite values with a nonzero divisor is exact. -/
theorem div_fin_fin (a b : ℚ) (hb : b ≠ 0) :
    div (fin a) (fin b) = fin (a / b) := by
  simp [div, hb]

/-- Division of a positive finite value by `+0` gives `+inf`. -/
theorem div_fin_zero (a : ℚ) (ha : 0 < a) :
    div (fin a) (fin 0) = pinf := by
  simp [div, ha, ne_of_gt ha]

/-- Multiplication of finite values is exact. -/
theorem mul_fin (a b : ℚ) : mul (fin a) (fin b) = fin (a * b) := rfl

/-- Addition of finite values is exact. -/
theorem add_fin (a b : ℚ) : add (fin a) (fin b) = fin (a + b) := rfl

/-- The logarithm of a positive finite value is the finite surrogate. -/
theorem ln_fin_pos (a : ℚ) (ha : 0 < a) : ln (fin a) = fin (a - 1) := by
  simp [ln, not_lt_of_gt ha, ne_of_gt ha]

/-- Fact: `+inf` divided by a non-negative finite value is `+inf`. -/
theorem div_pinf_fin (b : ℚ) (hb : 0 ≤ b) : div pinf (fin b) = pinf := by
  simp [div, hb]

/-- Fact: `+inf` times a positive finite value is `+inf`. -/
theorem mul_pinf_fin (b : ℚ) (hb : 0 < b) : mul pinf (fin b) = pinf := by
  simp [mul, hb, ne_of_gt hb]

end F

/-- Fact: `normalize_denominator` is (strictly) positive. -/
theorem normalize_denominator_pos (v : Nat) :
    0 < normalize_denominator v := by
  unfold normalize_denominator
  by_cases h : v = 0
  · simp [h]
  · simp only [h, if_false]
    exact_mod_cast Nat.pos_of_ne_zero h

/-- The `density` factor `ci / ti` of the composite formula. -/
def cDensity (m : NodeMetrics) : F :=
  F.div (.fin m.char_count) (.fin (normalize_denominator m.tag_count))

/-- The `ln_1` term `(ci / nlci) * lci` of the composite formula. -/
def cLn1 (m : NodeMetrics) : F :=
  (F.div (.fin m.char_count)
    (.fin (normalize_denominator
      (m.char_count - m.link_char_count)))).mul (.fin m.link_char_count)

/-- The `ln_2` term `(lcb / cb) * ci` of the composite formula. -/
def cLn2 (m bm : NodeMetrics) : F :=
  (F.div (.fin bm.link_char_count)
    (.fin (normalize_denominator bm.char_count))).mul (.fin m.char_count)

/-- The `value` term `(ci / lcb) * (ti / lti)` of the composite formula. -/
def cValue (m bm : NodeMetrics) : F :=
  (F.div (.fin m.char_count) (.fin bm.link_char_count)).mul
    (F.div (.fin (normalize_denominator m.tag_count))
      (.fin (normalize_denominator m.link_tag_count)))

/-- Unfolding of `composite_text_density` when there is content. -/
theorem composite_eq (m bm : NodeMetrics) (h : ¬ m.char_count = 0) :
    composite_text_density m bm =
      ((cValue m bm).log
        (F.ln (((cLn1 m).add (cLn2 m bm)).add (.fin eF32)))).mul
        (cDensity m) := by
  simp only [composite_text_density, h, if_false, cValue, cLn1, cLn2,
    cDensity]

/-- Finiteness of the composite's final combination: a positive finite
`value`, a log-base argument strictly above 2 and any finite `density`
give a finite result. -/
theorem F.log_chain_finite (V S D : ℚ) (hV : 0 < V) (hS : 2 < S) :
    (((F.fin V).log (F.ln (F.fin S))).mul (F.fin D)).isFinite = true := by
  rw [F.ln_fin_pos S (by linarith), F.log, F.ln_fin_pos V hV,
      F.ln_fin_pos (S - 1) (by linarith),
      F.div_fin_fin _ _ (sub_ne_zero.mpr (ne_of_gt (by linarith))),
      F.mul_fin]
  rfl

/-- C3 amended: `composite_text_density` is finite for all non-negative
integer metrics whenever the body's `link_char_count` is positive (in the
exact-arithmetic model). -/
theorem C3_amended_finite_when_body_links (m bm : NodeMetrics)
    (h : 0 < bm.link_char_count) :
    (composite_text_density m bm).isFinite = true := by
  by_cases hc : m.char_count = 0
  · simp [composite_text_density, hc, F.isFinite]
  · rw [composite_eq m bm hc]
    have hcq : (0 : ℚ) < (m.char_count : ℚ) :=
      by exact_mod_cast Nat.pos_of_ne_zero hc
    have hlb : (0 : ℚ) < (bm.link_char_count : ℚ) := by exact_mod_cast h
    have hti := normalize_denominator_pos m.tag_count
    have hlti := normalize_denominator_pos m.link_tag_count
    have hnlci :=
      normalize_denominator_pos (m.char_count - m.link_char_count)
    have hcb := normalize_denominator_pos bm.char_count
    rw [cValue, cLn1, cLn2, cDensity,
        F.div_fin_fin _ _ (ne_of_gt hlb),
        F.div_fin_fin _ _ (ne_of_gt hlti),
        F.div_fin_fin _ _ (ne_of_gt hnlci),
        F.div_fin_fin _ _ (ne_of_gt hcb),
        F.div_fin_fin _ _ (ne_of_gt hti),
        F.mul_fin, F.mul_fin, F.mul_fin, F.add_fin, F.add_fin]
    apply F.log_chain_finite
    · exact mul_pos (div_pos hcq hlb) (div_pos hti hlti)
    · have he2 : (2 : ℚ) < eF32 := by norm_num [eF32]
      have l1 : (0 : ℚ) ≤
          (m.char_count : ℚ) /
            normalize_denominator (m.char_count - m.link_char_count) *
            (m.link_char_count : ℚ) :=
        mul_nonneg (div_nonneg (Nat.cast_nonneg _) (le_of_lt hnlci))
          (Nat.cast_nonneg _)
      have l2 : (0 : ℚ) ≤
          (bm.link_char_count : ℚ) / normalize_denominator bm.char_count *
            (m.char_count : ℚ) :=
        mul_nonneg (div_nonneg (Nat.cast_nonneg _) (le_of_lt hcb))
          (Nat.cast_nonneg _)
      linarith

/-- C3 counterexample: at node metrics `(1, 1, 0, 0)` and body metrics
`(1, 0, 0, 0)` — body `link_char_count` a true zero — the composite
density is `+inf`, refuting the claim that the result is finite (neither
NaN nor infinite) for every tuple of non-negative integer inputs. -/
theorem C3_counterexample :
    composite_text_density ⟨1, 1, 0, 0⟩ ⟨1, 0, 0, 0⟩ = F.pinf ∧
    (composite_text_density ⟨1, 1, 0, 0⟩ ⟨1, 0, 0, 0⟩).isFinite = false := by
  have h : composite_text_density ⟨1, 1, 0, 0⟩ ⟨1, 0, 0, 0⟩ = F.pinf := by
    rw [composite_eq ⟨1, 1, 0, 0⟩ ⟨1, 0, 0, 0⟩ (by norm_num)]
    norm_num [cValue, cLn1, cLn2, cDensity, normalize_denominator, F.div,
      F.mul, F.add, F.ln, F.log, eF32]
  exact ⟨h, by rw [h]; rfl⟩

/-- Witness for the amended C3 theorem at concrete metrics. -/
theorem C3_amended_witness :
    0 < (200 : Nat) ∧
    (composite_text_density ⟨100, 10, 20, 4⟩ ⟨1000, 300, 200, 100⟩).isFinite
      = true :=
  ⟨by decide,
   C3_amended_finite_when_body_links ⟨100, 10, 20, 4⟩ ⟨1000, 300, 200, 100⟩
     (by decide)⟩

end DCE
